import Mathlib

/-!
Shallow embedding of the authentication subsystem of the bookstore
backend (auth controllers, refresh-token model, auth/role middleware,
auth Zod schemas), together with proofs of the specification claims.

Modelling conventions:
* MongoDB documents are Lean structures; a collection is a `List` in
  insertion order.  `findOne` with a filter is `List.find?`, i.e. the
  first document in natural (insertion) order that matches the filter,
  which is how MongoDB resolves `findOne` on a non-capped collection.
* Timestamps (`Date.now()`, `expiresAt`) are `Nat` milliseconds.
* `bcryptjs.hash`/`bcryptjs.compare` are modelled by an idealized
  injective hash: `compare p d` holds exactly when `d` is the hash of
  `p` (no collisions, verification correct), which is the functional
  contract of a correct one-way hash.
* `jsonwebtoken` sign/verify is modelled by a record carrying the
  payload, the absolute expiry and the signing secret; verification
  succeeds exactly on matching secret and unexpired token.
* `uuidv4()` results (token plaintexts, families, ids) are passed in
  as parameters; where a claim needs their unpredictability/freshness
  it appears as an explicit hypothesis.
* JavaScript falsiness of a possibly-missing cookie string
  (`!req.cookies.x`) is `none` or the empty string.
-/

/-- Cost factor for bcrypt, `SALT_ROUNDS` in the controller. -/
def SALT_ROUNDS : Nat := 10

/-- Refresh token lifetime: `REFRESH_TOKEN_EXPIRES_IN_DAYS = 7`. -/
def REFRESH_TOKEN_EXPIRES_IN_DAYS : Nat := 7

/-- Refresh token lifetime in milliseconds, as computed in the controller. -/
def REFRESH_TOKEN_EXPIRES_IN_MS : Nat :=
  REFRESH_TOKEN_EXPIRES_IN_DAYS * 24 * 60 * 60 * 1000

/-- Access token lifetime: `ACCESS_TOKEN_EXPIRES_IN = "15m"`, in milliseconds. -/
def ACCESS_TOKEN_EXPIRES_IN_MS : Nat := 15 * 60 * 1000

/-- Idealized model of `bcryptjs.hash(plain, SALT_ROUNDS)`: an injective
one-way digest of the plaintext. -/
def bcryptHash (plain : String) : String := "bcrypt$" ++ plain

/-- Model of `bcryptjs.compare(plain, digest)`: verification succeeds exactly
when `digest` is the digest of `plain`. -/
def bcryptCompare (plain digest : String) : Bool := bcryptHash plain == digest

/-- Access-token claims, the object literal `accessPayload` built in
`loginUser` / `refreshAccessToken` (`{id, name, email, role}`). -/
structure AccessPayload where
  id : String
  name : String
  email : String
  role : String
deriving DecidableEq, Repr

/-- Keys of the JSON object carried as JWT claims: the `accessPayload`
literal has exactly these properties. -/
def accessPayloadKeys : List String := ["id", "name", "email", "role"]

/-- Model of a signed JWT produced by `jwt.sign(payload, secretKey,
{expiresIn})`: carries the claims, the absolute expiry and the secret the
signature binds it to. -/
structure Jwt where
  payload : AccessPayload
  exp : Nat
  sig : String
deriving DecidableEq, Repr

/-- Result of `jwt.verify`: decoded claims, or the two distinct JWT error
kinds (`TokenExpiredError` / `JsonWebTokenError`). -/
inductive JwtVerifyResult where
  | ok : AccessPayload → JwtVerifyResult
  | expired : JwtVerifyResult
  | malformed : JwtVerifyResult
deriving DecidableEq, Repr

/-- Model of `jwt.sign(payload, secret, {expiresIn: "15m"})` at time `now`. -/
def jwtSign (payload : AccessPayload) (secret : String) (now : Nat) : Jwt :=
  { payload := payload, exp := now + ACCESS_TOKEN_EXPIRES_IN_MS, sig := secret }

/-- Model of `jwt.verify(token, secret)` at time `now`: signature check
(secret match) then expiry check. -/
def jwtVerify (tok : Jwt) (secret : String) (now : Nat) : JwtVerifyResult :=
  if tok.sig == secret then
    if now < tok.exp then .ok tok.payload else .expired
  else .malformed

/-- User document of the `users` collection (`models/authModel`): `_id` is
modelled by its string rendering, `password` is the bcrypt digest. -/
structure UserRec where
  id : String
  name : String
  email : String
  password : String
  role : String
deriving DecidableEq, Repr

/-- Refresh-token document of the `refreshTokens` collection
(`models/refreshTokenModel`). -/
structure RefreshTokenRecord where
  userId : String
  tokenHash : String
  tokenFamily : String
  expiresAt : Nat
  revokedAt : Option Nat
  replacedByTokenHash : Option String
  ipAddress : Option String
  userAgent : Option String
deriving DecidableEq, Repr

/-- Model of `User.findOne({email})`. -/
def findUserByEmail (users : List UserRec) (email : String) : Option UserRec :=
  users.find? (fun u => u.email == email)

/-- Model of `User.findById(id)`. -/
def findUserById (users : List UserRec) (id : String) : Option UserRec :=
  users.find? (fun u => u.id == id)

/-- Filter of step 2 of `refreshAccessToken`:
`{tokenFamily, revokedAt: null, expiresAt: {$gt: new Date()}}`.
Note it does NOT constrain `replacedByTokenHash`. -/
def matchesActiveFilter (family : String) (now : Nat) (r : RefreshTokenRecord) : Bool :=
  r.tokenFamily == family && r.revokedAt == none && decide (now < r.expiresAt)

/-- Model of `refreshTokenDoc.save()` after assigning
`replacedByTokenHash`: persists the mutation on the one document the
`findOne` returned, i.e. the first document matching the filter. -/
def setReplacedOnFirst (p : RefreshTokenRecord → Bool) (newHash : String) :
    List RefreshTokenRecord → List RefreshTokenRecord
  | [] => []
  | r :: rs =>
    if p r then { r with replacedByTokenHash := some newHash } :: rs
    else r :: setReplacedOnFirst p newHash rs

/-- Error body sent by the controllers: HTTP status plus the
`{success, message}` JSON body. -/
structure ErrorResponse where
  status : Nat
  success : Bool
  message : String
deriving DecidableEq, Repr

/-- Successful login response: status 200 body (token + public user data)
plus the two cookies set by `res.cookie`. -/
structure LoginSuccess where
  status : Nat
  message : String
  token : Jwt
  dataId : String
  dataName : String
  dataEmail : String
  dataRole : String
  refreshCookie : String
  familyCookie : String
deriving DecidableEq, Repr

/-- Model of `loginUser` (auth controller) after Zod validation of the
body succeeded, i.e. from step 2 (`User.findOne`) on.  The fresh
`uuidv4()` outputs (`tokenFamily`, `refreshTokenPlain`) and the clock are
parameters.  Returns the HTTP outcome and the updated `refreshTokens`
collection. -/
def loginUser (users : List UserRec) (sessions : List RefreshTokenRecord)
    (email password : String) (tokenFamily refreshTokenPlain : String)
    (now : Nat) (secret : String) (ip ua : Option String) :
    Except ErrorResponse LoginSuccess × List RefreshTokenRecord :=
  match findUserByEmail users email with
  | none => (.error ⟨401, false, "Invalid credentials"⟩, sessions)
  | some user =>
    if bcryptCompare password user.password then
      let accessToken :=
        jwtSign ⟨user.id, user.name, user.email, user.role⟩ secret now
      let refreshTokenHash := bcryptHash refreshTokenPlain
      let expiresAt := now + REFRESH_TOKEN_EXPIRES_IN_MS
      let newRecord : RefreshTokenRecord :=
        ⟨user.id, refreshTokenHash, tokenFamily, expiresAt, none, none, ip, ua⟩
      (.ok ⟨200, "Login successful", accessToken,
            user.id, user.name, user.email, user.role,
            refreshTokenPlain, tokenFamily⟩,
       sessions ++ [newRecord])
    else (.error ⟨401, false, "Invalid credentials"⟩, sessions)

/-- Error kinds of `refreshAccessToken`, in the order the controller
checks for them. -/
inductive RefreshErr where
  | missingCredentials : RefreshErr
  | invalidOrExpiredToken : RefreshErr
  | invalidToken : RefreshErr
  | tokenReuseDetected : RefreshErr
  | userNotFound : RefreshErr
deriving DecidableEq, Repr

/-- HTTP response the controller sends for each refresh error kind. -/
def refreshErrResponse : RefreshErr → ErrorResponse
  | .missingCredentials => ⟨401, false, "Refresh token and token family required"⟩
  | .invalidOrExpiredToken => ⟨401, false, "Invalid or expired refresh token"⟩
  | .invalidToken => ⟨401, false, "Invalid refresh token"⟩
  | .tokenReuseDetected => ⟨401, false, "Token reuse detected. Please login again."⟩
  | .userNotFound => ⟨401, false, "User not found"⟩

/-- Successful refresh response: status 200 body (new access token) plus
the two reissued cookies. -/
structure RefreshSuccess where
  status : Nat
  message : String
  token : Jwt
  refreshCookie : String
  familyCookie : String
deriving DecidableEq, Repr

/-- JavaScript falsiness of `req.cookies.x` (a `string | undefined`):
missing cookie or empty string value. -/
def cookieFalsy : Option String → Bool
  | none => true
  | some s => s == ""

/-- Model of `refreshAccessToken` (auth controller).  Cookies are the
possibly-absent `req.cookies.refreshToken` / `req.cookies.tokenFamily`;
the fresh `uuidv4()` output `newRefreshTokenPlain` and the clock are
parameters.  Returns the HTTP outcome and the updated `refreshTokens`
collection. -/
def refreshAccessToken (users : List UserRec) (sessions : List RefreshTokenRecord)
    (refreshCookie familyCookie : Option String)
    (newRefreshTokenPlain : String) (now : Nat) (secret : String)
    (ip ua : Option String) :
    Except RefreshErr RefreshSuccess × List RefreshTokenRecord :=
  if cookieFalsy refreshCookie || cookieFalsy familyCookie then
    (.error .missingCredentials, sessions)
  else
    let refreshTokenPlain := refreshCookie.getD ""
    let tokenFamily := familyCookie.getD ""
    match sessions.find? (matchesActiveFilter tokenFamily now) with
    | none => (.error .invalidOrExpiredToken, sessions)
    | some refreshTokenDoc =>
      if !bcryptCompare refreshTokenPlain refreshTokenDoc.tokenHash then
        (.error .invalidToken, sessions)
      else if refreshTokenDoc.replacedByTokenHash.isSome then
        (.error .tokenReuseDetected, sessions)
      else
        match findUserById users refreshTokenDoc.userId with
        | none => (.error .userNotFound, sessions)
        | some user =>
          let newRefreshTokenHash := bcryptHash newRefreshTokenPlain
          let newExpiresAt := now + REFRESH_TOKEN_EXPIRES_IN_MS
          let sessions1 :=
            setReplacedOnFirst (matchesActiveFilter tokenFamily now)
              newRefreshTokenHash sessions
          let newRec : RefreshTokenRecord :=
            ⟨user.id, newRefreshTokenHash, tokenFamily, newExpiresAt,
             none, none, ip, ua⟩
          let newAccessToken :=
            jwtSign ⟨user.id, user.name, user.email, user.role⟩ secret now
          (.ok ⟨200, "Token refreshed successfully", newAccessToken,
                newRefreshTokenPlain, tokenFamily⟩,
           sessions1 ++ [newRec])

/-- JSON values as they can appear in a request body (after
`express.json()` parsing). -/
inductive JsonValue where
  | str : String → JsonValue
  | num : Int → JsonValue
  | boolean : Bool → JsonValue
  | null : JsonValue
deriving DecidableEq, Repr

/-- Value of property `k` in a JSON object body (first occurrence). -/
def lookupKey (body : List (String × JsonValue)) (k : String) : Option JsonValue :=
  (body.find? (fun kv => kv.1 == k)).map (fun kv => kv.2)

/-- Splitting a character list at every occurrence of a separator
(structural helper for the string transforms of the schemas). -/
def splitOnChar (c : Char) : List Char → List (List Char)
  | [] => [[]]
  | x :: xs =>
    match splitOnChar c xs with
    | [] => if x == c then [[], []] else [[x]]
    | r :: rs => if x == c then [] :: r :: rs else (x :: r) :: rs

/-- Model of the JavaScript string `trim`: drop leading and trailing
whitespace. -/
def strTrim (s : String) : String :=
  ⟨((s.data.dropWhile Char.isWhitespace).reverse.dropWhile
      Char.isWhitespace).reverse⟩

/-- Model of the JavaScript string `toLowerCase`. -/
def strToLower (s : String) : String := ⟨s.data.map Char.toLower⟩

/-- Model of zod `z.email()` shape validation.  Abstraction of zod's
email regular expression: one `@` separating a nonempty local part from
a nonempty domain that contains a dot; the claims do not depend on the
exact accepted language. -/
def validEmailShape (s : String) : Bool :=
  match splitOnChar (Char.ofNat 64) s.data with
  | [localPart, domain] =>
    !localPart.isEmpty && !domain.isEmpty
      && decide ((splitOnChar (Char.ofNat 46) domain).length ≥ 2)
      && (splitOnChar (Char.ofNat 46) domain).all (fun part => !part.isEmpty)
  | _ => false

/-- Password characters accepted by the special-character regex of
`RegisterUserSchema`. -/
def specialChars : List Char :=
  ['!', '@', '#', '$', '%', '^', '&', '*', '(', ')', '_', '+', '-', '=',
   '[', ']', '{', '}', ';', ':', '"', '\\', '|', ',', '.', '<', '>', '/', '?']

/-- Model of the password rules of `RegisterUserSchema`: at least 6
characters, an uppercase letter, a digit, a special character, and no
whitespace (`/^\S*$/`). -/
def passwordRulesOk (s : String) : Bool :=
  decide (s.length ≥ 6)
    && s.toList.any (fun c => c.isUpper)
    && s.toList.any (fun c => c.isDigit)
    && s.toList.any (fun c => specialChars.contains c)
    && s.toList.all (fun c => !c.isWhitespace)

/-- Parsed registration data (`parseResult.data`): `name` trimmed,
`email` trimmed and lowercased by the zod transforms. -/
structure RegisterData where
  name : String
  email : String
  password : String
deriving DecidableEq, Repr

/-- Keys the strict `RegisterUserSchema` object recognizes. -/
def registerSchemaKeys : List String := ["name", "email", "password"]

/-- Model of `RegisterUserSchema.safeParse(body)`.  `.strict()` rejects
any property outside name/email/password; each field must be a string
passing its checks (checks run on the raw value, the `.trim()` /
`.toLowerCase()` transforms apply afterwards). -/
def registerUserSchemaParse (body : List (String × JsonValue)) : Option RegisterData :=
  if !(body.all (fun kv => registerSchemaKeys.contains kv.1)) then none
  else
    match lookupKey body "name", lookupKey body "email", lookupKey body "password" with
    | some (.str n), some (.str e), some (.str p) =>
      if decide (n.length ≥ 1) && validEmailShape e && passwordRulesOk p then
        some ⟨strTrim n, strToLower (strTrim e), p⟩
      else none
    | _, _, _ => none

/-- Successful registration response body (status 201). -/
structure RegisterSuccess where
  status : Nat
  message : String
  dataId : String
  dataName : String
  dataEmail : String
  dataRole : String
deriving DecidableEq, Repr

/-- Mongoose normalization of the email field (`lowercase: true, trim: true`). -/
def mongooseEmailNormalize (s : String) : String := strToLower (strTrim s)

/-- Model of `registerUser` (auth controller): Zod validation, bcrypt
hash, `User.create` with `role: "user"`.  The unique index on `email`
(duplicate key error 11000, surfaced as 409) is modelled as a membership
check on the store.  `newId` is the fresh `_id` Mongo assigns.  Returns
the HTTP outcome and the updated `users` collection. -/
def registerUser (users : List UserRec) (body : List (String × JsonValue))
    (newId : String) :
    Except ErrorResponse RegisterSuccess × List UserRec :=
  match registerUserSchemaParse body with
  | none => (.error ⟨400, false, "Invalid registration data"⟩, users)
  | some d =>
    let hashedPassword := bcryptHash d.password
    let email := mongooseEmailNormalize d.email
    if users.any (fun u => u.email == email) then
      (.error ⟨409, false, "Email already registered (duplicate key)"⟩, users)
    else
      let newUser : UserRec := ⟨newId, strTrim d.name, email, hashedPassword, "user"⟩
      (.ok ⟨201, "User registered successfully",
            newUser.id, newUser.name, newUser.email, newUser.role⟩,
       users ++ [newUser])

/-- Outcome of the `requireRole` middleware: pass control to the
protected handler (`next()`), or answer with an error response. -/
inductive GateOutcome where
  | callHandler : GateOutcome
  | unauthenticated : ErrorResponse → GateOutcome
  | forbidden : ErrorResponse → GateOutcome
deriving DecidableEq, Repr

/-- Single-quote character, used in the `requireRole` denial message. -/
def quoteStr : String := String.singleton (Char.ofNat 39)

/-- Denial message template of `requireRole`. -/
def forbiddenMessage (allowedRoles : List String) : String :=
  "Access denied: requires "
    ++ (if allowedRoles.length == 1 then "role" else "one of roles")
    ++ " " ++ quoteStr ++ String.intercalate (quoteStr ++ " or " ++ quoteStr) allowedRoles ++ quoteStr

/-- Model of the middleware returned by `requireRole(...allowedRoles)`:
`reqUser` is `req.user`, attached (or not) by a prior `authMiddleware`
verification. -/
def requireRole (allowedRoles : List String) (reqUser : Option AccessPayload) :
    GateOutcome :=
  match reqUser with
  | none =>
    .unauthenticated ⟨401, false, "Authentication required before authorization check"⟩
  | some user =>
    if !(allowedRoles.contains user.role) then
      .forbidden ⟨403, false, forbiddenMessage allowedRoles⟩
    else .callHandler

/-- Final state of a sequential refresh chain: the session store, the
client-held cookies after the last step, and the `tokenFamily` cookie
value delivered by each step of the chain, in order. -/
structure ChainResult where
  sessions : List RefreshTokenRecord
  plain : String
  family : String
  deliveredFamilies : List String
deriving DecidableEq, Repr

/-- Sequential chain of refresh calls: each step presents the cookies
delivered by the previous response (plain, family), with a fresh
plaintext and a clock reading per step; `none` as soon as a step fails. -/
def runRefreshChain (users : List UserRec) (secret : String) :
    List (String × Nat) → List RefreshTokenRecord → String → String →
    Option ChainResult
  | [], sessions, plain, family => some ⟨sessions, plain, family, []⟩
  | (newPlain, now) :: rest, sessions, plain, family =>
    match refreshAccessToken users sessions (some plain) (some family)
        newPlain now secret none none with
    | (.ok out, sessions1) =>
      (runRefreshChain users secret rest sessions1 out.refreshCookie
          out.familyCookie).map
        (fun res => { res with deliveredFamilies := out.familyCookie :: res.deliveredFamilies })
    | (.error _, _) => none

/-- Session stores reachable from the empty store by any sequence of
`loginUser` and `refreshAccessToken` calls (succeeding or failing), with
the uuid freshness guarantee that a login's new family does not collide
with any stored record's family. -/
inductive ReachableStore : List RefreshTokenRecord → Prop where
  | empty : ReachableStore []
  | login :
      ∀ (s : List RefreshTokenRecord) (users : List UserRec)
        (email password fam plain : String) (now : Nat) (secret : String)
        (ip ua : Option String) (res : Except ErrorResponse LoginSuccess)
        (s1 : List RefreshTokenRecord),
      ReachableStore s →
      (∀ r ∈ s, r.tokenFamily ≠ fam) →
      loginUser users s email password fam plain now secret ip ua = (res, s1) →
      ReachableStore s1
  | refresh :
      ∀ (s : List RefreshTokenRecord) (users : List UserRec)
        (c1 c2 : Option String) (newPlain : String) (now : Nat) (secret : String)
        (ip ua : Option String) (res : Except RefreshErr RefreshSuccess)
        (s1 : List RefreshTokenRecord),
      ReachableStore s →
      refreshAccessToken users s c1 c2 newPlain now secret ip ua = (res, s1) →
      ReachableStore s1

/-- Liveness of a refresh-token record at time `now`, as in claim C2:
not replaced, not revoked, not expired. -/
def IsLive (now : Nat) (r : RefreshTokenRecord) : Prop :=
  r.replacedByTokenHash = none ∧ r.revokedAt = none ∧ now < r.expiresAt

instance (now : Nat) (r : RefreshTokenRecord) : Decidable (IsLive now r) := by
  unfold IsLive; infer_instance

/-- At most one live record per family, stated pairwise over the store. -/
def AtMostOneLivePerFamily (now : Nat) (s : List RefreshTokenRecord) : Prop :=
  List.Pairwise
    (fun a b => ¬(IsLive now a ∧ IsLive now b ∧ a.tokenFamily = b.tokenFamily)) s

/-- Pairwise relation underlying the session invariant: two records that
are both unreplaced cannot share a family. -/
def UnreplacedFamilyDistinct (a b : RefreshTokenRecord) : Prop :=
  a.replacedByTokenHash = none → b.replacedByTokenHash = none →
    a.tokenFamily ≠ b.tokenFamily

/-- Demo user whose password plaintext is `Secret1!`. -/
def demoUser : UserRec :=
  ⟨"u1", "Alice", "alice@x.com", bcryptHash "Secret1!", "user"⟩

/-- Session store after the demo login at time 0 (family `fam1`, refresh
plaintext `tokT`). -/
def demoLoginStore : List RefreshTokenRecord :=
  [⟨"u1", bcryptHash "tokT", "fam1", 604800000, none, none, none, none⟩]

/-- Session store after refreshing once with `tokT` at time 1000 (new
plaintext `tokT2`): the consumed record is marked replaced, a second
record of the same family holds the new hash. -/
def demoRotatedStore : List RefreshTokenRecord :=
  [⟨"u1", bcryptHash "tokT", "fam1", 604800000, none,
    some (bcryptHash "tokT2"), none, none⟩,
   ⟨"u1", bcryptHash "tokT2", "fam1", 604801000, none, none, none, none⟩]

/-- Valid demo registration body. -/
def demoRegisterBody : List (String × JsonValue) :=
  [("name", .str "Alice"), ("email", .str "alice@x.com"),
   ("password", .str "Secret1!")]

/-- Demo registration body that additionally tries to set a role. -/
def demoRegisterBodyWithRole : List (String × JsonValue) :=
  demoRegisterBody ++ [("role", .str "admin")]

/-- Inversion of a successful `loginUser` call: the user was found, the
password verified, and the response/new store have the literal shapes
built in steps 5-7 of the controller. -/
theorem loginUser_ok_elim
    (users : List UserRec) (sessions : List RefreshTokenRecord)
    (email password fam plain : String) (now : Nat) (secret : String)
    (ip ua : Option String) (out : LoginSuccess) (s1 : List RefreshTokenRecord)
    (h : loginUser users sessions email password fam plain now secret ip ua
          = (.ok out, s1)) :
    ∃ user, findUserByEmail users email = some user ∧
      bcryptCompare password user.password = true ∧
      out = ⟨200, "Login successful",
             jwtSign ⟨user.id, user.name, user.email, user.role⟩ secret now,
             user.id, user.name, user.email, user.role, plain, fam⟩ ∧
      s1 = sessions ++
        [⟨user.id, bcryptHash plain, fam, now + REFRESH_TOKEN_EXPIRES_IN_MS,
          none, none, ip, ua⟩] := by
  unfold loginUser at h
  split at h
  · simp at h
  · rename_i user huser
    split at h
    · rename_i hcmp
      refine ⟨user, huser, hcmp, ?_, ?_⟩
      · simpa using congrArg Prod.fst h |>.symm
      · simpa using congrArg Prod.snd h |>.symm
    · simp at h

/-- The session store a `loginUser` call leaves behind: unchanged, or
extended by exactly the one record created in step 6. -/
theorem loginUser_store_shape
    (users : List UserRec) (sessions : List RefreshTokenRecord)
    (email password fam plain : String) (now : Nat) (secret : String)
    (ip ua : Option String) (res : Except ErrorResponse LoginSuccess)
    (s1 : List RefreshTokenRecord)
    (h : loginUser users sessions email password fam plain now secret ip ua
          = (res, s1)) :
    s1 = sessions ∨
      ∃ user : UserRec, s1 = sessions ++
        [⟨user.id, bcryptHash plain, fam, now + REFRESH_TOKEN_EXPIRES_IN_MS,
          none, none, ip, ua⟩] := by
  unfold loginUser at h
  split at h
  · left; simpa using congrArg Prod.snd h |>.symm
  · rename_i user huser
    split at h
    · right; exact ⟨user, by simpa using congrArg Prod.snd h |>.symm⟩
    · left; simpa using congrArg Prod.snd h |>.symm

/-- Any failing `refreshAccessToken` call leaves the session store
untouched: every error return in the controller happens before the
`save`/`create` of step 7. -/
theorem refreshAccessToken_error_eq
    (users : List UserRec) (sessions : List RefreshTokenRecord)
    (c1 c2 : Option String) (np : String) (now : Nat) (secret : String)
    (ip ua : Option String) (e : RefreshErr) (s1 : List RefreshTokenRecord)
    (h : refreshAccessToken users sessions c1 c2 np now secret ip ua
          = (.error e, s1)) :
    s1 = sessions := by
  unfold refreshAccessToken at h
  split at h
  · simpa using congrArg Prod.snd h |>.symm
  · dsimp only at h
    split at h
    · simpa using congrArg Prod.snd h |>.symm
    · split at h
      · simpa using congrArg Prod.snd h |>.symm
      · split at h
        · simpa using congrArg Prod.snd h |>.symm
        · split at h
          · simpa using congrArg Prod.snd h |>.symm
          · simp at h

/-- Inversion of a successful `refreshAccessToken` call: both cookies
were present and non-empty, the first record matching the active filter
verified the plaintext and was unreplaced, the owning user exists, and
the response/new store have the literal shapes of steps 7-9. -/
theorem refreshAccessToken_ok_elim
    (users : List UserRec) (sessions : List RefreshTokenRecord)
    (c1 c2 : Option String) (np : String) (now : Nat) (secret : String)
    (ip ua : Option String) (out : RefreshSuccess) (s1 : List RefreshTokenRecord)
    (h : refreshAccessToken users sessions c1 c2 np now secret ip ua
          = (.ok out, s1)) :
    ∃ plain family doc user,
      c1 = some plain ∧ c2 = some family ∧ plain ≠ "" ∧ family ≠ "" ∧
      sessions.find? (matchesActiveFilter family now) = some doc ∧
      bcryptCompare plain doc.tokenHash = true ∧
      doc.replacedByTokenHash = none ∧
      findUserById users doc.userId = some user ∧
      s1 = setReplacedOnFirst (matchesActiveFilter family now) (bcryptHash np)
             sessions ++
           [⟨user.id, bcryptHash np, family, now + REFRESH_TOKEN_EXPIRES_IN_MS,
             none, none, ip, ua⟩] ∧
      out = ⟨200, "Token refreshed successfully",
             jwtSign ⟨user.id, user.name, user.email, user.role⟩ secret now,
             np, family⟩ := by
  unfold refreshAccessToken at h
  split at h
  · simp at h
  · rename_i hcf
    obtain ⟨plain, rfl⟩ : ∃ p, c1 = some p := by
      cases c1 with
      | none => simp [cookieFalsy] at hcf
      | some p => exact ⟨p, rfl⟩
    obtain ⟨family, rfl⟩ : ∃ f, c2 = some f := by
      cases c2 with
      | none => simp [cookieFalsy] at hcf
      | some f => exact ⟨f, rfl⟩
    simp only [cookieFalsy, Bool.or_eq_true, beq_iff_eq, not_or] at hcf
    obtain ⟨hp, hf⟩ := hcf
    dsimp only [Option.getD] at h
    split at h
    · simp at h
    · rename_i doc hfind
      split at h
      · simp at h
      · rename_i hcmp
        split at h
        · simp at h
        · rename_i hrep
          split at h
          · simp at h
          · rename_i user huser
            refine ⟨plain, family, doc, user, rfl, rfl, hp, hf, hfind, ?_, ?_, huser, ?_, ?_⟩
            · simpa using hcmp
            · exact Option.not_isSome_iff_eq_none.mp hrep
            · simpa using congrArg Prod.snd h |>.symm
            · simpa using congrArg Prod.fst h |>.symm

/-- A record matching the active-lookup filter carries the family it was
searched by. -/
theorem family_of_matchesActiveFilter {family : String} {now : Nat}
    {r : RefreshTokenRecord} (h : matchesActiveFilter family now r = true) :
    r.tokenFamily = family := by
  simp only [matchesActiveFilter, Bool.and_eq_true, beq_iff_eq] at h
  exact h.1.1

/-- Decomposition of the store around the first filter match: what the
`findOne` of step 2 returned and what `setReplacedOnFirst` rewrites. -/
theorem setReplacedOnFirst_of_find?
    {p : RefreshTokenRecord → Bool} {doc : RefreshTokenRecord}
    {s : List RefreshTokenRecord} (newHash : String)
    (h : s.find? p = some doc) :
    ∃ pre post, s = pre ++ doc :: post ∧ (∀ r ∈ pre, p r = false) ∧ p doc = true ∧
      setReplacedOnFirst p newHash s =
        pre ++ { doc with replacedByTokenHash := some newHash } :: post := by
  induction s with
  | nil => simp at h
  | cons r rs ih =>
    by_cases hp : p r
    · rw [List.find?_cons_of_pos rs hp] at h
      obtain rfl : r = doc := by simpa using h
      exact ⟨[], rs, rfl, by simp, hp, by simp [setReplacedOnFirst, hp]⟩
    · rw [List.find?_cons_of_neg rs hp] at h
      obtain ⟨pre, post, hs, hpre, hdoc, hset⟩ := ih h
      refine ⟨r :: pre, post, by simp [hs], ?_, hdoc, ?_⟩
      · intro x hx
        rcases List.mem_cons.mp hx with rfl | hx
        · exact Bool.not_eq_true _ ▸ by simpa using hp
        · exact hpre x hx
      · simp [setReplacedOnFirst, hp, hset]

/-- Membership in the rewritten store: each element is an original record
or the one record with `replacedByTokenHash` newly set. -/
theorem mem_setReplacedOnFirst
    {p : RefreshTokenRecord → Bool} {newHash : String}
    {s : List RefreshTokenRecord} {b : RefreshTokenRecord}
    (h : b ∈ setReplacedOnFirst p newHash s) :
    b ∈ s ∨ ∃ b0 ∈ s, b = { b0 with replacedByTokenHash := some newHash } := by
  induction s with
  | nil => simp [setReplacedOnFirst] at h
  | cons r rs ih =>
    by_cases hp : p r
    · simp only [setReplacedOnFirst, if_pos hp] at h
      rcases List.mem_cons.mp h with rfl | hb
      · exact Or.inr ⟨r, List.mem_cons_self r rs, rfl⟩
      · exact Or.inl (List.mem_cons_of_mem r hb)
    · simp only [setReplacedOnFirst, if_neg hp] at h
      rcases List.mem_cons.mp h with rfl | hb
      · exact Or.inl (List.mem_cons_self b rs)
      · rcases ih hb with hb | ⟨b0, hb0, rfl⟩
        · exact Or.inl (List.mem_cons_of_mem r hb)
        · exact Or.inr ⟨b0, List.mem_cons_of_mem r hb0, rfl⟩

/-- Setting `replacedByTokenHash` on one record preserves the pairwise
invariant: the rewrite only moves a record out of the unreplaced set. -/
theorem pairwise_setReplacedOnFirst
    {p : RefreshTokenRecord → Bool} {newHash : String}
    {s : List RefreshTokenRecord}
    (h : List.Pairwise UnreplacedFamilyDistinct s) :
    List.Pairwise UnreplacedFamilyDistinct (setReplacedOnFirst p newHash s) := by
  induction s with
  | nil => exact h
  | cons r rs ih =>
    obtain ⟨hr, hrs⟩ := List.pairwise_cons.mp h
    by_cases hp : p r
    · simp only [setReplacedOnFirst, if_pos hp]
      refine List.pairwise_cons.mpr ⟨?_, hrs⟩
      intro b _ hnone
      simp at hnone
    · simp only [setReplacedOnFirst, if_neg hp]
      refine List.pairwise_cons.mpr ⟨?_, ih hrs⟩
      intro b hb hra hbnone
      rcases mem_setReplacedOnFirst hb with hb | ⟨b0, hb0, rfl⟩
      · exact hr b hb hra hbnone
      · simp at hbnone

/-- After the rotation rewrite, no record of the rotated family is left
unreplaced: the found record was the unique unreplaced one and it was
just marked replaced. -/
theorem setReplacedOnFirst_no_unreplaced_in_family
    {family : String} {now : Nat} {newHash : String}
    {s : List RefreshTokenRecord} {doc : RefreshTokenRecord}
    (hpw : List.Pairwise UnreplacedFamilyDistinct s)
    (hfind : s.find? (matchesActiveFilter family now) = some doc)
    (hdoc : doc.replacedByTokenHash = none) :
    ∀ a ∈ setReplacedOnFirst (matchesActiveFilter family now) newHash s,
      a.replacedByTokenHash = none → a.tokenFamily ≠ family := by
  induction s with
  | nil => simp at hfind
  | cons r rs ih =>
    obtain ⟨hr, hrs⟩ := List.pairwise_cons.mp hpw
    by_cases hp : matchesActiveFilter family now r
    · rw [List.find?_cons_of_pos rs hp] at hfind
      obtain rfl : r = doc := by simpa using hfind
      simp only [setReplacedOnFirst, if_pos hp]
      intro a ha hanone
      rcases List.mem_cons.mp ha with rfl | ha
      · simp at hanone
      · intro hafam
        exact hr a ha hdoc hanone
          ((family_of_matchesActiveFilter hp).trans hafam.symm)
    · rw [List.find?_cons_of_neg rs hp] at hfind
      simp only [setReplacedOnFirst, if_neg hp]
      intro a ha hanone
      rcases List.mem_cons.mp ha with rfl | ha
      · intro hafam
        have hdocmem : doc ∈ rs := List.mem_of_find?_eq_some hfind
        have hdocfam : doc.tokenFamily = family :=
          family_of_matchesActiveFilter (List.find?_some hfind)
        exact hr doc hdocmem hanone hdoc (hafam.trans hdocfam.symm)
      · exact ih hrs hfind a ha hanone

/-- Inductive invariant of the session store: any store reachable by
logins and refreshes has at most one unreplaced record per family. -/
theorem reachable_pairwise_unreplaced {s : List RefreshTokenRecord}
    (h : ReachableStore s) : List.Pairwise UnreplacedFamilyDistinct s := by
  induction h with
  | empty => exact List.Pairwise.nil
  | login s users email password fam plain now secret ip ua res s1 hreach hfresh heq ih =>
    rcases loginUser_store_shape users s email password fam plain now secret ip ua
        res s1 heq with rfl | ⟨user, rfl⟩
    · exact ih
    · refine List.pairwise_append.mpr ⟨ih, List.pairwise_singleton _ _, ?_⟩
      intro a ha b hb
      obtain rfl := List.mem_singleton.mp hb
      intro _ _ hcontr
      exact hfresh a ha hcontr
  | refresh s users c1 c2 newPlain now secret ip ua res s1 hreach heq ih =>
    cases res with
    | error e =>
      rw [refreshAccessToken_error_eq users s c1 c2 newPlain now secret ip ua e s1 heq]
      exact ih
    | ok out =>
      obtain ⟨plain, family, doc, user, -, -, -, -, hfind, -, hrep, -, rfl, -⟩ :=
        refreshAccessToken_ok_elim users s c1 c2 newPlain now secret ip ua out s1 heq
      refine List.pairwise_append.mpr
        ⟨pairwise_setReplacedOnFirst ih, List.pairwise_singleton _ _, ?_⟩
      intro a ha b hb
      obtain rfl := List.mem_singleton.mp hb
      intro hanone _
      exact setReplacedOnFirst_no_unreplaced_in_family ih hfind hrep a ha hanone

/-- The demo login store arises from a `loginUser` call on the empty store. -/
theorem demoLoginStore_reachable : ReachableStore demoLoginStore :=
  ReachableStore.login [] [demoUser] "alice@x.com" "Secret1!" "fam1" "tokT" 0 "sec"
    none none _ demoLoginStore ReachableStore.empty (by simp) rfl

/-- The demo rotated store arises from a `refreshAccessToken` call on the
demo login store. -/
theorem demoRotatedStore_reachable : ReachableStore demoRotatedStore :=
  ReachableStore.refresh demoLoginStore [demoUser] (some "tokT") (some "fam1")
    "tokT2" 1000 "sec" none none _ demoRotatedStore demoLoginStore_reachable rfl

/-- C2: in every state of the session record store reachable by any
sequence of Login and Refresh operations from the empty store, each
family contains at most one live refresh-token record, where live means
`replacedByTokenHash` is null, `revokedAt` is null and `expiresAt` is in
the future. -/
theorem store_at_most_one_live_per_family
    (s : List RefreshTokenRecord) (h : ReachableStore s) (now : Nat) :
    AtMostOneLivePerFamily now s :=
  List.Pairwise.imp (fun hab hc => hab hc.1.1 hc.2.1.1 hc.2.2)
    (reachable_pairwise_unreplaced h)

theorem store_at_most_one_live_per_family_witness :
    AtMostOneLivePerFamily 2000 demoRotatedStore :=
  store_at_most_one_live_per_family demoRotatedStore demoRotatedStore_reachable 2000

/-- C1 (evaluation at the failing scenario): in the demo state, the first
Refresh presenting `tokT` for family `fam1` succeeds and rotates;
replaying `tokT` afterwards fails with `TokenReuseDetected` as the claim
states, but presenting the successor plaintext `tokT2` for the same
family does NOT succeed: the step-2 lookup matches the superseded record
first (its filter does not exclude records with `replacedByTokenHash`
set), so the hash comparison fails and the controller answers
`InvalidToken`. -/
theorem rotation_replay_and_successor_eval :
    refreshAccessToken [demoUser] demoLoginStore (some "tokT") (some "fam1")
        "tokT2" 1000 "sec" none none
      = (.ok ⟨200, "Token refreshed successfully",
              jwtSign ⟨"u1", "Alice", "alice@x.com", "user"⟩ "sec" 1000,
              "tokT2", "fam1"⟩, demoRotatedStore)
  ∧ (refreshAccessToken [demoUser] demoRotatedStore (some "tokT") (some "fam1")
        "tokT3" 2000 "sec" none none).1 = .error .tokenReuseDetected
  ∧ (refreshAccessToken [demoUser] demoRotatedStore (some "tokT2") (some "fam1")
        "tokT3" 2000 "sec" none none).1 = .error .invalidToken :=
  ⟨rfl, rfl, rfl⟩

/-- C8: every Refresh invocation that returns an error (any of the five
kinds: missing cookies, no active record for the family, hash mismatch,
reuse detected, owning user not found) leaves the session record store
exactly as it was; in particular reuse detection revokes nothing. -/
theorem refresh_error_atomicity
    (users : List UserRec) (sessions : List RefreshTokenRecord)
    (c1 c2 : Option String) (np : String) (now : Nat) (secret : String)
    (ip ua : Option String) (e : RefreshErr) (s1 : List RefreshTokenRecord)
    (h : refreshAccessToken users sessions c1 c2 np now secret ip ua
          = (.error e, s1)) :
    s1 = sessions :=
  refreshAccessToken_error_eq users sessions c1 c2 np now secret ip ua e s1 h

theorem refresh_error_atomicity_witness :
    (refreshAccessToken [demoUser] demoRotatedStore (some "tokT") (some "fam1")
        "tokT3" 2000 "sec" none none).2 = demoRotatedStore :=
  refresh_error_atomicity [demoUser] demoRotatedStore (some "tokT") (some "fam1")
    "tokT3" 2000 "sec" none none .tokenReuseDetected _ rfl

/-- C4: the login failure for an email matching no stored user and the
login failure for an existing email whose password fails hash
verification produce identical error responses: status 401, success
false, and the same InvalidCredentials message, so the response does not
reveal whether the email exists. -/
theorem login_no_user_enumeration
    (users : List UserRec) (sessions1 sessions2 : List RefreshTokenRecord)
    (email1 password1 fam1 plain1 : String) (now1 : Nat) (secret1 : String)
    (ip1 ua1 : Option String)
    (email2 password2 fam2 plain2 : String) (now2 : Nat) (secret2 : String)
    (ip2 ua2 : Option String) (u : UserRec)
    (h1 : findUserByEmail users email1 = none)
    (h2 : findUserByEmail users email2 = some u)
    (h3 : bcryptCompare password2 u.password = false) :
    (loginUser users sessions1 email1 password1 fam1 plain1 now1 secret1 ip1 ua1).1
      = .error ⟨401, false, "Invalid credentials"⟩
  ∧ (loginUser users sessions2 email2 password2 fam2 plain2 now2 secret2 ip2 ua2).1
      = .error ⟨401, false, "Invalid credentials"⟩ := by
  constructor
  · unfold loginUser
    rw [h1]
  · unfold loginUser
    rw [h2]
    simp [h3]

theorem login_no_user_enumeration_witness :
    findUserByEmail [demoUser] "bob@x.com" = none ∧
    findUserByEmail [demoUser] "alice@x.com" = some demoUser ∧
    bcryptCompare "wrong" demoUser.password = false ∧
    ((loginUser [demoUser] [] "bob@x.com" "pw" "f1" "t1" 0 "sec" none none).1
        = .error ⟨401, false, "Invalid credentials"⟩
      ∧ (loginUser [demoUser] [] "alice@x.com" "wrong" "f2" "t2" 0 "sec" none none).1
        = .error ⟨401, false, "Invalid credentials"⟩) :=
  ⟨rfl, rfl, rfl,
   login_no_user_enumeration [demoUser] [] [] "bob@x.com" "pw" "f1" "t1" 0 "sec"
     none none "alice@x.com" "wrong" "f2" "t2" 0 "sec" none none demoUser
     rfl rfl rfl⟩

/-- C7: the role gate passes control to the protected handler exactly
when the verified payload's role belongs to the required role set; a
role outside the set yields the Forbidden response with status 403 (and
not the handler); a request with no attached payload yields the
unauthenticated response instead of Forbidden. -/
theorem requireRole_gate (allowedRoles : List String) (p : AccessPayload) :
    (requireRole allowedRoles (some p) = .callHandler ↔ p.role ∈ allowedRoles)
  ∧ (p.role ∉ allowedRoles →
      requireRole allowedRoles (some p)
        = .forbidden ⟨403, false, forbiddenMessage allowedRoles⟩)
  ∧ requireRole allowedRoles none
      = .unauthenticated
          ⟨401, false, "Authentication required before authorization check"⟩ := by
  refine ⟨?_, ?_, rfl⟩
  · unfold requireRole
    by_cases hm : p.role ∈ allowedRoles
    · simp [hm]
    · simp [hm]
  · intro hm
    unfold requireRole
    simp [hm]

theorem requireRole_gate_witness :
    ("user" ∉ ["admin"]) ∧
    requireRole ["admin"] (some ⟨"u1", "Alice", "alice@x.com", "user"⟩)
      = .forbidden ⟨403, false, forbiddenMessage ["admin"]⟩ :=
  ⟨by decide,
   (requireRole_gate ["admin"] ⟨"u1", "Alice", "alice@x.com", "user"⟩).2.1 (by decide)⟩

/-- C6: verifying the access token returned by a successful login — with
the same secret, before expiry — succeeds and yields claims equal to the
user's public projection (id as string, name, email, role); the claims
object carries no password property. -/
theorem login_access_token_roundtrip
    (users : List UserRec) (sessions : List RefreshTokenRecord)
    (email password fam plain : String) (now : Nat) (secret : String)
    (ip ua : Option String) (out : LoginSuccess) (s1 : List RefreshTokenRecord)
    (u : UserRec) (hu : findUserByEmail users email = some u)
    (hok : loginUser users sessions email password fam plain now secret ip ua
            = (.ok out, s1))
    (t : Nat) (ht : t < now + ACCESS_TOKEN_EXPIRES_IN_MS) :
    jwtVerify out.token secret t = .ok ⟨u.id, u.name, u.email, u.role⟩
  ∧ "password" ∉ accessPayloadKeys := by
  obtain ⟨u2, hu2, hcmp, rfl, -⟩ :=
    loginUser_ok_elim users sessions email password fam plain now secret ip ua
      out s1 hok
  obtain rfl : u2 = u := by
    rw [hu] at hu2
    exact (Option.some.inj hu2).symm
  refine ⟨?_, by decide⟩
  simp [jwtVerify, jwtSign, ht]

theorem login_access_token_roundtrip_witness :
    jwtVerify (jwtSign ⟨"u1", "Alice", "alice@x.com", "user"⟩ "sec" 0) "sec" 1
        = .ok ⟨"u1", "Alice", "alice@x.com", "user"⟩
    ∧ "password" ∉ accessPayloadKeys :=
  login_access_token_roundtrip [demoUser] [] "alice@x.com" "Secret1!" "fam1"
    "tokT" 0 "sec" none none _ demoLoginStore demoUser rfl rfl 1 (by decide)

/-- C9: a successful Refresh rewrites exactly one existing record — the
consumed one, changing only its `replacedByTokenHash` to the new hash —
and appends exactly one new record; the consumed record was the first
match of the step-1 active lookup, keeps `revokedAt` null and its
`expiresAt`, still satisfies the active-lookup filter afterwards, and
only the set `replacedByTokenHash` keeps it from being live, while the
created record is the live one of the family. -/
theorem refresh_success_frame
    (users : List UserRec) (sessions : List RefreshTokenRecord)
    (plain family np : String) (now : Nat) (secret : String)
    (ip ua : Option String) (out : RefreshSuccess) (s1 : List RefreshTokenRecord)
    (hok : refreshAccessToken users sessions (some plain) (some family) np now
            secret ip ua = (.ok out, s1)) :
    ∃ (pre : List RefreshTokenRecord) (doc : RefreshTokenRecord)
      (post : List RefreshTokenRecord) (user : UserRec),
      sessions = pre ++ doc :: post ∧
      (∀ r ∈ pre, matchesActiveFilter family now r = false) ∧
      matchesActiveFilter family now doc = true ∧
      doc.replacedByTokenHash = none ∧
      findUserById users doc.userId = some user ∧
      s1 = (pre ++ { doc with replacedByTokenHash := some (bcryptHash np) } :: post)
             ++ [⟨user.id, bcryptHash np, family,
                  now + REFRESH_TOKEN_EXPIRES_IN_MS, none, none, ip, ua⟩] ∧
      doc.revokedAt = none ∧
      matchesActiveFilter family now
          { doc with replacedByTokenHash := some (bcryptHash np) } = true ∧
      IsLive now (⟨user.id, bcryptHash np, family,
          now + REFRESH_TOKEN_EXPIRES_IN_MS, none, none, ip, ua⟩ : RefreshTokenRecord) ∧
      ¬ IsLive now { doc with replacedByTokenHash := some (bcryptHash np) } := by
  obtain ⟨plain2, family2, doc, user, hp2, hf2, -, -, hfind, -, hrep, huser, rfl, -⟩ :=
    refreshAccessToken_ok_elim users sessions (some plain) (some family) np now
      secret ip ua out s1 hok
  obtain rfl : plain2 = plain := Option.some.inj hp2.symm
  obtain rfl : family2 = family := Option.some.inj hf2.symm
  obtain ⟨pre, post, hs, hpre, hdocm, hset⟩ :=
    setReplacedOnFirst_of_find? (bcryptHash np) hfind
  have hdocfields := (Bool.and_eq_true _ _).mp hdocm
  refine ⟨pre, doc, post, user, hs, hpre, hdocm, hrep, huser, ?_, ?_, ?_, ?_, ?_⟩
  · rw [hset]
  · simpa using ((Bool.and_eq_true _ _).mp hdocfields.1).2
  · simp only [matchesActiveFilter] at hdocm ⊢
    simpa using hdocm
  · refine ⟨rfl, rfl, ?_⟩
    show now < now + REFRESH_TOKEN_EXPIRES_IN_MS
    have : 0 < REFRESH_TOKEN_EXPIRES_IN_MS := by decide
    omega
  · intro hl
    simpa using hl.1

theorem refresh_success_frame_witness :
    ∃ (pre : List RefreshTokenRecord) (doc : RefreshTokenRecord)
      (post : List RefreshTokenRecord) (user : UserRec),
      demoLoginStore = pre ++ doc :: post ∧
      (∀ r ∈ pre, matchesActiveFilter "fam1" 1000 r = false) ∧
      matchesActiveFilter "fam1" 1000 doc = true ∧
      doc.replacedByTokenHash = none ∧
      findUserById [demoUser] doc.userId = some user ∧
      demoRotatedStore
        = (pre ++ { doc with replacedByTokenHash := some (bcryptHash "tokT2") } :: post)
            ++ [⟨user.id, bcryptHash "tokT2", "fam1",
                 1000 + REFRESH_TOKEN_EXPIRES_IN_MS, none, none, none, none⟩] ∧
      doc.revokedAt = none ∧
      matchesActiveFilter "fam1" 1000
          { doc with replacedByTokenHash := some (bcryptHash "tokT2") } = true ∧
      IsLive 1000 (⟨user.id, bcryptHash "tokT2", "fam1",
          1000 + REFRESH_TOKEN_EXPIRES_IN_MS, none, none, none, none⟩ : RefreshTokenRecord) ∧
      ¬ IsLive 1000 { doc with replacedByTokenHash := some (bcryptHash "tokT2") } :=
  refresh_success_frame [demoUser] demoLoginStore "tokT" "fam1" "tokT2" 1000
    "sec" none none _ demoRotatedStore rfl

/-- C10: a successful public registration persists a user whose role is
exactly "user" whatever the body contained, and any body with a role
property (or any property outside name/email/password) is rejected by
the strict schema with the 400 validation error, leaving the user store
unchanged. -/
theorem register_role_locked
    (users : List UserRec) (body : List (String × JsonValue)) (newId : String) :
    (∀ out users1, registerUser users body newId = (.ok out, users1) →
      ∃ newUser : UserRec, users1 = users ++ [newUser] ∧ newUser.role = "user"
        ∧ out.dataRole = "user")
  ∧ ((∃ kv ∈ body, kv.1 = "role")
      ∨ (∃ kv ∈ body, registerSchemaKeys.contains kv.1 = false) →
      registerUser users body newId
        = (.error ⟨400, false, "Invalid registration data"⟩, users)) := by
  constructor
  · intro out users1 h
    unfold registerUser at h
    split at h
    · simp at h
    · rename_i d hd
      dsimp only at h
      split at h
      · simp at h
      · rename_i hdup
        simp only [Prod.mk.injEq] at h
        obtain ⟨hout, husers⟩ := h
        obtain rfl := Except.ok.inj hout
        exact ⟨_, husers.symm, rfl, rfl⟩
  · intro hbad
    have hall : body.all (fun kv => registerSchemaKeys.contains kv.1) = false := by
      rcases hbad with ⟨kv, hkv, hrole⟩ | ⟨kv, hkv, hnot⟩
      · refine List.all_eq_false.mpr ⟨kv, hkv, ?_⟩
        rw [hrole]
        decide
      · exact List.all_eq_false.mpr ⟨kv, hkv, by simpa using hnot⟩
    have hparse : registerUserSchemaParse body = none := by
      unfold registerUserSchemaParse
      rw [hall]
      rfl
    unfold registerUser
    rw [hparse]

theorem register_role_locked_witness :
    (∃ newUser : UserRec,
       (registerUser [] demoRegisterBody "id1").2 = [] ++ [newUser] ∧
       newUser.role = "user")
  ∧ registerUser [] demoRegisterBodyWithRole "id2"
      = (.error ⟨400, false, "Invalid registration data"⟩, []) := by
  constructor
  · obtain ⟨nu, h1, h2, -⟩ := (register_role_locked [] demoRegisterBody "id1").1 _ _ rfl
    exact ⟨nu, h1, h2⟩
  · exact (register_role_locked [] demoRegisterBodyWithRole "id2").2
      (Or.inl ⟨("role", JsonValue.str "admin"),
        by simp [demoRegisterBodyWithRole, demoRegisterBody], rfl⟩)

/-- Exhaustive characterization of the outcome of a refresh call with
both cookies present and non-empty, following the check order of the
controller. -/
theorem refreshAccessToken_cases
    (users : List UserRec) (sessions : List RefreshTokenRecord)
    (plain family np : String) (now : Nat) (secret : String)
    (ip ua : Option String) (hp : plain ≠ "") (hf : family ≠ "") :
    (sessions.find? (matchesActiveFilter family now) = none ∧
      (refreshAccessToken users sessions (some plain) (some family) np now
          secret ip ua).1 = .error .invalidOrExpiredToken)
  ∨ (∃ doc, sessions.find? (matchesActiveFilter family now) = some doc ∧
      ((bcryptCompare plain doc.tokenHash = false ∧
         (refreshAccessToken users sessions (some plain) (some family) np now
             secret ip ua).1 = .error .invalidToken)
       ∨ (bcryptCompare plain doc.tokenHash = true ∧
           doc.replacedByTokenHash ≠ none ∧
           (refreshAccessToken users sessions (some plain) (some family) np now
               secret ip ua).1 = .error .tokenReuseDetected)
       ∨ (bcryptCompare plain doc.tokenHash = true ∧
           doc.replacedByTokenHash = none ∧
           findUserById users doc.userId = none ∧
           (refreshAccessToken users sessions (some plain) (some family) np now
               secret ip ua).1 = .error .userNotFound)
       ∨ (bcryptCompare plain doc.tokenHash = true ∧
           doc.replacedByTokenHash = none ∧
           (∃ user, findUserById users doc.userId = some user) ∧
           ∃ out, (refreshAccessToken users sessions (some plain) (some family)
               np now secret ip ua).1 = .ok out))) := by
  have hcond : (cookieFalsy (some plain) || cookieFalsy (some family)) = false := by
    simp [cookieFalsy, hp, hf]
  rw [refreshAccessToken]
  rw [if_neg (by simp [hcond])]
  dsimp only [Option.getD]
  split
  · rename_i hfind
    exact Or.inl ⟨hfind, rfl⟩
  · rename_i doc hfind
    refine Or.inr ⟨doc, hfind, ?_⟩
    by_cases hcmp : bcryptCompare plain doc.tokenHash
    · rw [if_neg (by simp [hcmp])]
      by_cases hrep : doc.replacedByTokenHash.isSome
      · rw [if_pos hrep]
        exact Or.inr (Or.inl ⟨hcmp, Option.isSome_iff_ne_none.mp hrep, rfl⟩)
      · rw [if_neg hrep]
        have hrepn : doc.replacedByTokenHash = none :=
          Option.not_isSome_iff_eq_none.mp hrep
        split
        · rename_i huser
          exact Or.inr (Or.inr (Or.inl ⟨hcmp, hrepn, huser, rfl⟩))
        · rename_i user huser
          exact Or.inr (Or.inr (Or.inr ⟨hcmp, hrepn, ⟨user, huser⟩, _, rfl⟩))
    · rw [if_pos (by simpa [Bool.not_eq_true] using hcmp)]
      exact Or.inl ⟨by simpa [Bool.not_eq_true] using hcmp, rfl⟩

/-- Propositional reading of the step-2 lookup filter. -/
theorem matchesActiveFilter_iff (family : String) (now : Nat)
    (r : RefreshTokenRecord) :
    matchesActiveFilter family now r = true
      ↔ (r.tokenFamily = family ∧ r.revokedAt = none ∧ now < r.expiresAt) := by
  simp [matchesActiveFilter, and_assoc]

/-- C5 (amended: "absent" widened to "absent or empty", because the
controller tests JavaScript falsiness of the cookie values): Refresh
fails MissingCredentials exactly when either cookie is absent or empty;
otherwise InvalidOrExpiredToken exactly when no record of that family is
unrevoked with expiry strictly after now; otherwise InvalidToken exactly
when the presented plaintext does not verify against the found record's
tokenHash; all three surface as status 401. -/
theorem refresh_error_taxonomy
    (users : List UserRec) (sessions : List RefreshTokenRecord)
    (c1 c2 : Option String) (np : String) (now : Nat) (secret : String)
    (ip ua : Option String) :
    ((refreshAccessToken users sessions c1 c2 np now secret ip ua).1
        = .error .missingCredentials
      ↔ (cookieFalsy c1 = true ∨ cookieFalsy c2 = true))
  ∧ (∀ plain family, c1 = some plain → c2 = some family →
      plain ≠ "" → family ≠ "" →
      (((refreshAccessToken users sessions c1 c2 np now secret ip ua).1
          = .error .invalidOrExpiredToken)
        ↔ ∀ r ∈ sessions,
            ¬(r.tokenFamily = family ∧ r.revokedAt = none ∧ now < r.expiresAt)))
  ∧ (∀ plain family doc, c1 = some plain → c2 = some family →
      plain ≠ "" → family ≠ "" →
      sessions.find? (matchesActiveFilter family now) = some doc →
      (((refreshAccessToken users sessions c1 c2 np now secret ip ua).1
          = .error .invalidToken)
        ↔ bcryptCompare plain doc.tokenHash = false))
  ∧ (refreshErrResponse .missingCredentials).status = 401
  ∧ (refreshErrResponse .invalidOrExpiredToken).status = 401
  ∧ (refreshErrResponse .invalidToken).status = 401 := by
  refine ⟨?_, ?_, ?_, rfl, rfl, rfl⟩
  · by_cases h1 : cookieFalsy c1 = true
    · simp [refreshAccessToken, h1]
    · by_cases h2 : cookieFalsy c2 = true
      · simp [refreshAccessToken, h1, h2]
      · rw [Bool.not_eq_true] at h1 h2
        simp only [h1, h2, Bool.false_eq_true, or_self, iff_false]
        obtain ⟨plain, rfl⟩ : ∃ p, c1 = some p := by
          cases c1 with
          | none => simp [cookieFalsy] at h1
          | some p => exact ⟨p, rfl⟩
        obtain ⟨family, rfl⟩ : ∃ f, c2 = some f := by
          cases c2 with
          | none => simp [cookieFalsy] at h2
          | some f => exact ⟨f, rfl⟩
        simp only [cookieFalsy, beq_eq_false_iff_ne, ne_eq] at h1 h2
        rcases refreshAccessToken_cases users sessions plain family np now secret
            ip ua h1 h2 with ⟨-, hres⟩ |
          ⟨doc, -, ⟨-, hres⟩ | ⟨-, -, hres⟩ | ⟨-, -, -, hres⟩ | ⟨-, -, -, out, hres⟩⟩ <;>
          rw [hres] <;> simp
  · rintro plain family rfl rfl hp hf
    rcases refreshAccessToken_cases users sessions plain family np now secret
        ip ua hp hf with ⟨hfind, hres⟩ |
      ⟨doc, hfind, ⟨-, hres⟩ | ⟨-, -, hres⟩ | ⟨-, -, -, hres⟩ | ⟨-, -, -, out, hres⟩⟩
    · rw [hres]
      simp only [true_iff]
      intro r hr
      have := List.find?_eq_none.mp hfind r hr
      simpa [matchesActiveFilter_iff] using this
    all_goals {
      rw [hres]
      have hdocmem := List.mem_of_find?_eq_some hfind
      have hdocmatch := (matchesActiveFilter_iff family now doc).mp
        (List.find?_some hfind)
      constructor
      · intro hcontr
        simp at hcontr
      · intro hforall
        exact absurd hdocmatch (hforall doc hdocmem)
    }
  · rintro plain family doc rfl rfl hp hf hfind
    rcases refreshAccessToken_cases users sessions plain family np now secret
        ip ua hp hf with ⟨hfind2, hres⟩ |
      ⟨doc2, hfind2, hcases⟩
    · rw [hfind] at hfind2
      simp at hfind2
    · rw [hfind] at hfind2
      obtain rfl : doc2 = doc := Option.some.inj hfind2.symm
      rcases hcases with ⟨hcmp, hres⟩ | ⟨hcmp, -, hres⟩ | ⟨hcmp, -, -, hres⟩ |
        ⟨hcmp, -, -, out, hres⟩ <;> rw [hres] <;> simp [hcmp]

/-- C5 counterexample to the claim as stated: a present-but-empty
refreshToken cookie makes the controller answer MissingCredentials even
though neither cookie is absent. -/
theorem refresh_missing_credentials_empty_cookie_counterexample :
    (refreshAccessToken [] [] (some "") (some "fam1") "np" 0 "sec" none none).1
      = .error .missingCredentials
  ∧ (some "" : Option String) ≠ none ∧ (some "fam1" : Option String) ≠ none :=
  ⟨rfl, by simp, by simp⟩

theorem refresh_error_taxonomy_witness :
    (refreshAccessToken [demoUser] [] (some "tokT") (some "fam1") "np" 0 "sec"
        none none).1 = .error .invalidOrExpiredToken := by
  have h := (refresh_error_taxonomy [demoUser] [] (some "tokT") (some "fam1")
      "np" 0 "sec" none none).2.1 "tokT" "fam1" rfl rfl (by decide) (by decide)
  exact h.mpr (by simp)

/-- Per-step facts of a successful refresh: the family cookie is
re-delivered unchanged, the created record (last of the store) carries
the same family and the new hash, and — provided the fresh plaintext's
hash is not already stored — the returned plaintext differs from the
consumed one. -/
theorem refresh_ok_step
    (users : List UserRec) (secret : String)
    (sessions : List RefreshTokenRecord) (plain family np : String) (now : Nat)
    (ip ua : Option String) (out : RefreshSuccess) (s1 : List RefreshTokenRecord)
    (hok : refreshAccessToken users sessions (some plain) (some family) np now
            secret ip ua = (.ok out, s1)) :
    out.familyCookie = family ∧ out.refreshCookie = np ∧
    (∃ newRec : RefreshTokenRecord, s1.getLast? = some newRec ∧
      newRec.tokenFamily = family ∧ newRec.tokenHash = bcryptHash np) ∧
    ((∀ r ∈ sessions, r.tokenHash ≠ bcryptHash np) → np ≠ plain) := by
  obtain ⟨plain2, family2, doc, user, hp2, hf2, -, -, hfind, hcmp, -, -, rfl, rfl⟩ :=
    refreshAccessToken_ok_elim users sessions (some plain) (some family) np now
      secret ip ua out s1 hok
  obtain rfl : plain = plain2 := Option.some.inj hp2
  obtain rfl : family = family2 := Option.some.inj hf2
  refine ⟨rfl, rfl,
    ⟨⟨user.id, bcryptHash np, family, now + REFRESH_TOKEN_EXPIRES_IN_MS,
      none, none, ip, ua⟩, ?_, rfl, rfl⟩, ?_⟩
  · exact List.getLast?_concat _
  · intro hfresh heq
    apply hfresh doc (List.mem_of_find?_eq_some hfind)
    have hdigest : bcryptHash plain = doc.tokenHash := by
      simpa [bcryptCompare] using hcmp
    rw [heq, hdigest]

/-- A successful chain of sequential refreshes preserves the family at
every step: the final family is the initial one, and every step
delivered exactly the initial family. -/
theorem runRefreshChain_family
    (users : List UserRec) (secret : String) :
    ∀ (steps : List (String × Nat)) (sessions : List RefreshTokenRecord)
      (plain family : String) (res : ChainResult),
      runRefreshChain users secret steps sessions plain family = some res →
      res.family = family ∧
      res.deliveredFamilies = List.replicate steps.length family := by
  intro steps
  induction steps with
  | nil =>
    intro sessions plain family res h
    simp only [runRefreshChain] at h
    obtain rfl := Option.some.inj h
    exact ⟨rfl, rfl⟩
  | cons step rest ih =>
    intro sessions plain family res h
    obtain ⟨newPlain, now⟩ := step
    simp only [runRefreshChain] at h
    split at h
    · rename_i out sessions1 hcall
      cases hrec : runRefreshChain users secret rest sessions1 out.refreshCookie
          out.familyCookie with
      | none => rw [hrec] at h; simp at h
      | some res2 =>
        rw [hrec] at h
        obtain rfl := Option.some.inj h
        have hfam : out.familyCookie = family :=
          (refresh_ok_step users secret sessions plain family newPlain now
            none none out sessions1 hcall).1
        obtain ⟨hres2fam, hres2del⟩ := ih sessions1 out.refreshCookie
          out.familyCookie res2 hrec
        constructor
        · exact hres2fam.trans hfam
        · simp [hres2del, hfam, List.replicate_succ]
    · simp at h

/-- C3: family continuity — every successful Refresh re-delivers exactly
the consumed family, both in the tokenFamily cookie and in the record it
creates, and (given the freshness of the generated uuid plaintext)
returns a plaintext different from the one it consumed; a successful
login delivers the family it issued, and a chain of N successful
sequential refreshes delivers that same family identifier at every one
of its N steps. -/
theorem refresh_family_continuity
    (users : List UserRec) (secret : String) :
    (∀ sessions plain family np now ip ua out s1,
      refreshAccessToken users sessions (some plain) (some family) np now secret
          ip ua = (.ok out, s1) →
      out.familyCookie = family ∧
      (∃ newRec : RefreshTokenRecord, s1.getLast? = some newRec ∧
        newRec.tokenFamily = family ∧ newRec.tokenHash = bcryptHash np) ∧
      ((∀ r ∈ sessions, r.tokenHash ≠ bcryptHash np) → np ≠ plain))
  ∧ (∀ sessions email password fam plain now ip ua out s1,
      loginUser users sessions email password fam plain now secret ip ua
          = (.ok out, s1) → out.familyCookie = fam)
  ∧ (∀ steps sessions plain family res,
      runRefreshChain users secret steps sessions plain family = some res →
      res.family = family ∧
      res.deliveredFamilies = List.replicate steps.length family) := by
  refine ⟨?_, ?_, runRefreshChain_family users secret⟩
  · intro sessions plain family np now ip ua out s1 hok
    obtain ⟨h1, -, h3, h4⟩ := refresh_ok_step users secret sessions plain family
      np now ip ua out s1 hok
    exact ⟨h1, h3, h4⟩
  · intro sessions email password fam plain now ip ua out s1 hok
    obtain ⟨user, -, -, rfl, -⟩ := loginUser_ok_elim users sessions email
      password fam plain now secret ip ua out s1 hok
    rfl

theorem refresh_family_continuity_witness :
    ∃ res : ChainResult,
      runRefreshChain [demoUser] "sec" [("tokT2", 1000)] demoLoginStore "tokT"
          "fam1" = some res
        ∧ res.family = "fam1" ∧ res.deliveredFamilies = ["fam1"] := by
  obtain ⟨h1, h2⟩ := (refresh_family_continuity [demoUser] "sec").2.2
      [("tokT2", 1000)] demoLoginStore "tokT" "fam1" _ rfl
  exact ⟨_, rfl, h1, h2⟩
